import Mathlib

/-!
Shallow embedding of the golf-score-tracker core
(`src/08-golf-score-tracker/src`): validators, the `Scorecard` domain
model, the `PlayerStatistics` aggregator and the file-based repository,
with theorems settling the spec claims about them.

Modelling conventions:
* Rust `u8`/`u16` values are `Nat`; a narrowing cast such as
  `scores.len() as u8` is modelled by an explicit `% 256`, and the
  release-mode wrapping of a `u16` accumulator by `% 65536`.
* `Uuid` identifiers are `Nat`; `Uuid::new_v4()` (external randomness)
  becomes an explicit `roundId` argument to `Scorecard.new`.
* `BTreeMap<u8, u8>` is an association list of key/value pairs with
  strictly ascending keys (the order `BTreeMap` iterates in); `insert`
  keeps that order and overwrites an existing key.
* A Rust panic (`.expect(..)`) is the `none` outcome of an `Option`:
  `record_score` returns `none` where the Rust program aborts.
* `f64` values (the statistics average, a player handicap) are modelled
  as exact rationals `ℚ`; rounding of `f64` division is out of scope.
-/

namespace Golf

/-- Error taxonomy of `error.rs` (`GolfError`). Payloads kept where a
claim mentions them; `serde_json::Error` and `std::io::Error` payloads
are dropped. -/
inductive GolfError where
  | invalidScore (score : Int) (hole : Nat) (par : Nat)
  | invalidHole (hole : Nat) (maxHoles : Nat)
  | playerNotFound (name : String)
  | roundNotFound (id : Nat)
  | invalidPar (par : Nat)
  | scorecardComplete (id : Nat)
  | serializationError
  | ioError
  | custom (msg : String)
deriving DecidableEq, Repr

instance {ε α : Type} [DecidableEq ε] [DecidableEq α] : DecidableEq (Except ε α) := fun
  | .ok a, .ok b => decidable_of_iff (a = b) (by simp)
  | .ok _, .error _ => .isFalse (by simp)
  | .error _, .ok _ => .isFalse (by simp)
  | .error a, .error b => decidable_of_iff (a = b) (by simp)

/-- Embeds `validators.rs`: `validate_hole_number`. -/
def validate_hole_number (hole maxHoles : Nat) : Except GolfError Unit :=
  if hole == 0 || hole > maxHoles then
    .error (.invalidHole hole maxHoles)
  else
    .ok ()

/-- Embeds `validators.rs`: `validate_par`. -/
def validate_par (par : Nat) : Except GolfError Unit :=
  if !(par == 3 || par == 4 || par == 5) then
    .error (.invalidPar par)
  else
    .ok ()

/-- Embeds `validators.rs`: `validate_score` (bound 1..=15, independent
of `par`; `hole` and `par` are carried only into the error payload). -/
def validate_score (strokes hole par : Nat) : Except GolfError Unit :=
  if !(1 ≤ strokes && strokes ≤ 15) then
    .error (.invalidScore strokes hole par)
  else
    .ok ()

/-- Model of `BTreeMap<u8, u8>`: entries in ascending key order. -/
abbrev BMap := List (Nat × Nat)

/-- Lookup in the map model (`BTreeMap::get`). -/
def bget (m : BMap) (k : Nat) : Option Nat :=
  (m.find? (fun e => e.1 == k)).map (·.2)

/-- Insert-or-overwrite in the map model (`BTreeMap::insert`),
preserving ascending key order. -/
def binsert (k v : Nat) : BMap → BMap
  | [] => [(k, v)]
  | (k₁, v₁) :: rest =>
    if k < k₁ then (k, v) :: (k₁, v₁) :: rest
    else if k == k₁ then (k, v) :: rest
    else (k₁, v₁) :: binsert k v rest

/-- State of `scorecard.rs`: `Scorecard` (all integer fields are `u8`
in Rust). -/
structure Scorecard where
  round_id : Nat
  player_id : Nat
  max_holes : Nat
  scores : BMap
  pars : BMap
deriving DecidableEq, Repr

/-- Layout validation loop of `Scorecard::new`: for each `(hole, par)`
entry in iteration order, `validate_hole_number` then `validate_par`,
stopping at the first error. -/
def validateLayout (maxHoles : Nat) : BMap → Except GolfError Unit
  | [] => .ok ()
  | (hole, toPar) :: rest =>
    match validate_hole_number hole maxHoles with
    | .error e => .error e
    | .ok _ =>
      match validate_par toPar with
      | .error e => .error e
      | .ok _ => validateLayout maxHoles rest

/-- Embeds `Scorecard::new`; `roundId` stands for the generated
`Uuid::new_v4()`. -/
def Scorecard.new (roundId playerId maxHoles : Nat) (pars : BMap) :
    Except GolfError Scorecard :=
  match validateLayout maxHoles pars with
  | .error e => .error e
  | .ok _ => .ok ⟨roundId, playerId, maxHoles, [], pars⟩

/-- Embeds `Scorecard::record_score`. The Rust method mutates
`&mut self` and returns `Result<()>`; here the successful outcome
carries the updated card. The `none` outcome is the
`.expect("par must exist for each hole")` panic: the program aborts
there, no error value is returned. An `.error` outcome leaves the card
unchanged (the Rust method returns before touching `scores`). -/
def Scorecard.record_score (c : Scorecard) (hole strokes : Nat) :
    Option (Except GolfError Scorecard) :=
  match validate_hole_number hole c.max_holes with
  | .error e => some (.error e)
  | .ok _ =>
    match bget c.pars hole with
    | none => none
    | some par =>
      match validate_score strokes hole par with
      | .error e => some (.error e)
      | .ok _ => some (.ok { c with scores := binsert hole strokes c.scores })

/-- Card state after a `record_score` call, when the program survives
it: the updated card on success, the unchanged card on a validation
error, `none` when the call panicked. -/
def Scorecard.recordState (c : Scorecard) (hole strokes : Nat) :
    Option Scorecard :=
  (c.record_score hole strokes).map fun r =>
    match r with
    | .ok c₁ => c₁
    | .error _ => c

/-- Embeds `Scorecard::get_par`. -/
def Scorecard.get_par (c : Scorecard) (hole : Nat) : Option Nat :=
  bget c.pars hole

/-- Embeds `Scorecard::get_score`. -/
def Scorecard.get_score (c : Scorecard) (hole : Nat) : Option Nat :=
  bget c.scores hole

/-- Embeds `Scorecard::is_complete`: `scores.len() as u8 == max_holes`
(the `as u8` cast is the `% 256`). -/
def Scorecard.is_complete (c : Scorecard) : Bool :=
  c.scores.length % 256 == c.max_holes

/-- Sum of the values of a map (`values().map(u16::from).sum()`): at
most 256 entries of value ≤ 255, so the `u16` sum cannot wrap and a
plain `Nat` sum is exact. -/
def bvaluesSum (m : BMap) : Nat :=
  (m.map (·.2)).sum

/-- Embeds `Scorecard::total_strokes`. -/
def Scorecard.total_strokes (c : Scorecard) : Option Nat :=
  if c.is_complete then some (bvaluesSum c.scores) else none

/-- Value of a `u16` reinterpreted as `i16` (`as i16`). -/
def u16AsI16 (n : Nat) : Int :=
  let m := n % 65536
  if m < 32768 then (m : Int) else (m : Int) - 65536

/-- Wrap an integer into `i16` range (release-mode `i16` arithmetic). -/
def i16Wrap (z : Int) : Int :=
  (z + 32768) % 65536 - 32768

/-- Embeds `Scorecard::score_relative_to_par`:
`total_strokes as i16 - total_par as i16` on the two `u16` sums. -/
def Scorecard.score_relative_to_par (c : Scorecard) : Option Int :=
  if !c.is_complete then none
  else
    some (i16Wrap (u16AsI16 (bvaluesSum c.scores) - u16AsI16 (bvaluesSum c.pars)))

/-- Result record of `statistics.rs`: `PlayerStatistics`.
`average_score` is `Option ℚ` (the `f64` modelled as an exact
rational); `best_score`/`worst_score` are `u16` totals. -/
structure PlayerStatistics where
  total_rounds : Nat
  completed_rounds : Nat
  average_score : Option ℚ
  best_score : Option Nat
  worst_score : Option Nat
  total_under_par : Int
  total_over_par : Int
  eagles : Nat
  birdies : Nat
  pars : Nat
  bogeys : Nat
  double_bogeys : Nat
deriving DecidableEq, Repr

/-- Value of a `u8` reinterpreted as `i8` (`as i8`). -/
def u8AsI8 (n : Nat) : Int :=
  let m := n % 256
  if m < 128 then (m : Int) else (m : Int) - 256

/-- Wrap an integer into `i8` range (release-mode `i8` arithmetic). -/
def i8Wrap (z : Int) : Int :=
  (z + 128) % 256 - 128

/-- Wrap an integer into `i32` range (release-mode `i32` arithmetic). -/
def i32Wrap (z : Int) : Int :=
  (z + 2147483648) % 4294967296 - 2147483648

/-- Counter tuple (eagles, birdies, pars, bogeys, double_bogeys). -/
abbrev HoleCounts := Nat × Nat × Nat × Nat × Nat

/-- Loop body of `PlayerStatistics::calculate_hole_statistics` for one
hole of one card: when both a score and a par are present,
`strokes as i8 - par as i8` selects exactly one counter via the match
on `..=-2 | -1 | 0 | 1 | 2..`. -/
def holeStep (card : Scorecard) (hole : Nat) (acc : HoleCounts) : HoleCounts :=
  match card.get_score hole, card.get_par hole with
  | some strokes, some par =>
    let d := i8Wrap (u8AsI8 strokes - u8AsI8 par)
    match acc with
    | (eagleC, birdieC, parC, bogeyC, doubleC) =>
      if d ≤ -2 then (eagleC + 1, birdieC, parC, bogeyC, doubleC)
      else if d = -1 then (eagleC, birdieC + 1, parC, bogeyC, doubleC)
      else if d = 0 then (eagleC, birdieC, parC + 1, bogeyC, doubleC)
      else if d = 1 then (eagleC, birdieC, parC, bogeyC + 1, doubleC)
      else (eagleC, birdieC, parC, bogeyC, doubleC + 1)
  | _, _ => acc

/-- Embeds `PlayerStatistics::calculate_hole_statistics`: for each card,
holes `1..=max_holes` in order. -/
def calculate_hole_statistics (cards : List Scorecard) : HoleCounts :=
  cards.foldl
    (fun acc card =>
      (List.range' 1 card.max_holes).foldl (fun a h => holeStep card h a) acc)
    (0, 0, 0, 0, 0)

/-- Release-mode `u16` accumulation of `.sum::<u16>()`: each addition
wraps modulo 2^16. -/
def sumU16 (l : List Nat) : Nat :=
  l.foldl (fun a t => (a + t) % 65536) 0

/-- Release-mode `i32` accumulation of `.sum::<i32>()`. -/
def sumI32 (l : List Int) : Int :=
  l.foldl (fun a s => i32Wrap (a + s)) 0

/-- Embeds `PlayerStatistics::from_scorecards` (the `f64` division of
`average_score` modelled as exact division in `ℚ`). -/
def from_scorecards (cards : List Scorecard) : PlayerStatistics :=
  let total_rounds := cards.length
  let completed := cards.filter (fun x => x.is_complete)
  let completed_rounds := completed.length
  let totals := completed.filterMap Scorecard.total_strokes
  let average_score : Option ℚ :=
    if completed_rounds > 0 then
      some ((sumU16 totals : ℚ) / (completed_rounds : ℚ))
    else
      none
  let best_score := totals.min?
  let worst_score := totals.max?
  let relative_scores := completed.filterMap Scorecard.score_relative_to_par
  let total_under_par := sumI32 (relative_scores.filter (fun s => s < 0))
  let total_over_par := sumI32 (relative_scores.filter (fun s => s > 0))
  match calculate_hole_statistics completed with
  | (eagleC, birdieC, parC, bogeyC, doubleC) =>
    ⟨total_rounds, completed_rounds, average_score, best_score, worst_score,
     total_under_par, total_over_par, eagleC, birdieC, parC, bogeyC, doubleC⟩

/-- Record of `player.rs`: `Player` (the `f64` handicap modelled as an
exact rational). -/
structure Player where
  id : Nat
  name : String
  handicap : Option ℚ
deriving DecidableEq, Repr

/-- Content of one persisted file. `serde_json::to_string_pretty` is
modelled as the injection of the record into `Doc`;
`serde_json::from_str` as the projection, failing on the `malformed`
constructor (corrupted text) or on a document of the wrong shape. This
captures that JSON serialization of these record types is injective and
round-trips. -/
inductive Doc where
  | playerDoc (p : Player)
  | scorecardDoc (s : Scorecard)
  | malformed (text : String)
deriving DecidableEq, Repr

/-- Filesystem path, as components. -/
abbrev Path := List String

/-- State of the filesystem seen by `FileRepository`: the set of
directories created and the files with their contents. -/
structure FS where
  dirs : List Path
  files : List (Path × Doc)
deriving DecidableEq, Repr

/-- Models `std::fs::create_dir_all` (idempotent). -/
def FS.createDirAll (fs : FS) (p : Path) : FS :=
  if p ∈ fs.dirs then fs else { fs with dirs := p :: fs.dirs }

/-- Models `std::fs::write` (creates or overwrites the file). -/
def FS.writeFile (fs : FS) (p : Path) (d : Doc) : FS :=
  { fs with files := (p, d) :: fs.files.filter (fun e => !(e.1 == p)) }

/-- Content of the file at `p`, when a file is there. -/
def FS.read? (fs : FS) (p : Path) : Option Doc :=
  (fs.files.find? (fun e => e.1 == p)).map (·.2)

/-- Models `Path::exists`: true for a directory or a file at `p`. -/
def FS.pathExists (fs : FS) (p : Path) : Bool :=
  fs.dirs.contains p || (fs.files.find? (fun e => e.1 == p)).isSome

/-- Models `std::fs::read_dir` over a flat entity directory: the
contents of the files directly inside `dir`. -/
def FS.filesIn (fs : FS) (dir : Path) : List Doc :=
  (fs.files.filter (fun e => e.1.dropLast == dir && e.1.length == dir.length + 1)).map (·.2)

/-- Path `{base}/players` of `FileRepository`. -/
def playersDir (base : Path) : Path := base ++ ["players"]

/-- Path `{base}/scorecards` of `FileRepository`. -/
def scorecardsDir (base : Path) : Path := base ++ ["scorecards"]

/-- Embeds `FileRepository::player_path`: `{base}/players/{id}.json`. -/
def player_path (base : Path) (id : Nat) : Path :=
  playersDir base ++ [toString id ++ ".json"]

/-- Embeds `FileRepository::scorecard_path`:
`{base}/scorecards/{id}.json`. -/
def scorecard_path (base : Path) (id : Nat) : Path :=
  scorecardsDir base ++ [toString id ++ ".json"]

/-- Models `serde_json::from_str::<Player>`. -/
def decodePlayer : Doc → Except GolfError Player
  | .playerDoc p => .ok p
  | _ => .error .serializationError

/-- Models `serde_json::from_str::<Scorecard>`. -/
def decodeScorecard : Doc → Except GolfError Scorecard
  | .scorecardDoc s => .ok s
  | _ => .error .serializationError

/-- Embeds `FileRepository::save_player`: create the parent directory,
then write the serialized record (the underlying I/O is modelled as
succeeding; the claims about `save_*` condition on a successful save). -/
def save_player (base : Path) (fs : FS) (p : Player) : FS :=
  (fs.createDirAll (playersDir base)).writeFile (player_path base p.id) (.playerDoc p)

/-- Embeds `FileRepository::get_player`: missing path is `Ok(None)`;
a directory squatting the path makes `read_to_string` fail with an I/O
error; unparsable content is a serialization error. -/
def get_player (base : Path) (fs : FS) (id : Nat) :
    Except GolfError (Option Player) :=
  let path := player_path base id
  if !(fs.pathExists path) then .ok none
  else
    match fs.read? path with
    | none => .error .ioError
    | some d =>
      match decodePlayer d with
      | .error e => .error e
      | .ok p => .ok (some p)

/-- Deserialization loop shared by the two listing methods: first
failure aborts the listing. -/
def decodeAll {α : Type} (dec : Doc → Except GolfError α) :
    List Doc → Except GolfError (List α)
  | [] => .ok []
  | d :: rest =>
    match dec d with
    | .error e => .error e
    | .ok a =>
      match decodeAll dec rest with
      | .error e => .error e
      | .ok tail => .ok (a :: tail)

/-- Embeds `FileRepository::list_players`: a missing directory yields
the empty list. -/
def list_players (base : Path) (fs : FS) : Except GolfError (List Player) :=
  if !(fs.pathExists (playersDir base)) then .ok []
  else decodeAll decodePlayer (fs.filesIn (playersDir base))

/-- Embeds `FileRepository::save_scorecard`. -/
def save_scorecard (base : Path) (fs : FS) (s : Scorecard) : FS :=
  (fs.createDirAll (scorecardsDir base)).writeFile
    (scorecard_path base s.round_id) (.scorecardDoc s)

/-- Embeds `FileRepository::get_scorecard`. -/
def get_scorecard (base : Path) (fs : FS) (round_id : Nat) :
    Except GolfError (Option Scorecard) :=
  let path := scorecard_path base round_id
  if !(fs.pathExists path) then .ok none
  else
    match fs.read? path with
    | none => .error .ioError
    | some d =>
      match decodeScorecard d with
      | .error e => .error e
      | .ok s => .ok (some s)

/-- Embeds `FileRepository::list_scorecards`. -/
def list_scorecards (base : Path) (fs : FS) : Except GolfError (List Scorecard) :=
  if !(fs.pathExists (scorecardsDir base)) then .ok []
  else decodeAll decodeScorecard (fs.filesIn (scorecardsDir base))

/-- Embeds `FileRepository::get_scorecards_by_player`: a filter over the
full listing. -/
def get_scorecards_by_player (base : Path) (fs : FS) (player_id : Nat) :
    Except GolfError (List Scorecard) :=
  match list_scorecards base fs with
  | .error e => .error e
  | .ok results => .ok (results.filter (fun x => x.player_id == player_id))

/-- Invariant of the `Scorecard` data model (spec §3): `max_holes` is a
`u8`, the score-map keys are distinct (a `BTreeMap` guarantee) and every
scored hole lies in `1..max_holes` (`record_score` validates the hole
before inserting). -/
def Scorecard.WF (c : Scorecard) : Prop :=
  c.max_holes ≤ 255 ∧ (c.scores.map Prod.fst).Nodup ∧
    ∀ e ∈ c.scores, 1 ≤ e.1 ∧ e.1 ≤ c.max_holes

instance (c : Scorecard) : Decidable c.WF := by
  unfold Scorecard.WF; infer_instance

/-- Sum of the five classification counters. -/
def countsSum (t : HoleCounts) : Nat :=
  t.1 + t.2.1 + t.2.2.1 + t.2.2.2.1 + t.2.2.2.2

/-- Number of holes of one card (over the iterated range
`1..=max_holes`) carrying both a recorded score and a par. -/
def scoredParPairs (card : Scorecard) : Nat :=
  ((List.range' 1 card.max_holes).filter
    (fun h => (card.get_score h).isSome && (card.get_par h).isSome)).length

/-- Stated from the spec claim: the number of (scorecard, hole) pairs
where both a recorded score and a par exist, over a list of cards. -/
def pairsWithScoreAndPar (cards : List Scorecard) : Nat :=
  (cards.map scoredParPairs).sum

/-- Stated from the spec claim: the exact arithmetic mean of
`total_strokes()` over the complete cards of the input. -/
def meanTotalStrokes (cards : List Scorecard) : Option ℚ :=
  let totals := (cards.filter (fun x => x.is_complete)).filterMap Scorecard.total_strokes
  if totals.length = 0 then none
  else some ((totals.sum : ℚ) / (totals.length : ℚ))

/-- Validation outcome of `Scorecard::new` for a single layout entry:
the hole check runs first, then the par check. -/
def pairError (maxHoles : Nat) (e : Nat × Nat) : Option GolfError :=
  match validate_hole_number e.1 maxHoles with
  | .error err => some err
  | .ok _ =>
    match validate_par e.2 with
    | .error err => some err
    | .ok _ => none

/-- Card accepted by `Scorecard::new 0 0 1 []`: `max_holes = 1` but no
par entry for hole 1 (the constructor only checks entries present). -/
def c1Card : Scorecard := ⟨0, 0, 1, [], []⟩

/-- Card with one par-4 hole and no scores yet. -/
def oneHoleCard : Scorecard := ⟨0, 0, 1, [], [(1, 4)]⟩

/-- Complete two-hole card: pars 4 and 4, scores 4 and 5. -/
def twoHoleCard : Scorecard := ⟨0, 0, 2, [(1, 4), (2, 5)], [(1, 4), (2, 4)]⟩

/-- Incomplete two-hole card with a score and a par on hole 1. -/
def incompleteCard : Scorecard := ⟨0, 0, 2, [(1, 4)], [(1, 4), (2, 4)]⟩

/-- Par-3 layout for a 15-hole card. -/
def par3Layout15 : BMap := (List.range' 1 15).map (fun h => (h, 3))

/-- Score map recording 15 strokes (the maximum `validate_score`
accepts) on each of 15 holes. -/
def maxScores15 : BMap := (List.range' 1 15).map (fun h => (h, 15))

/-- Complete 15-hole card, total 15 × 15 = 225 strokes; every entry is
reachable through `Scorecard::new` and `record_score`. -/
def heavyCard : Scorecard := ⟨0, 0, 15, maxScores15, par3Layout15⟩

/-- 292 copies of `heavyCard`: the sum of the totals, 292 × 225 =
65700, exceeds the `u16` accumulator range 0..65535. -/
def overflowInput : List Scorecard := List.replicate 292 heavyCard

/-- Complete one-hole card: par 4, score 4. -/
def completeOneHole : Scorecard := ⟨0, 0, 1, [(1, 4)], [(1, 4)]⟩

/-- Empty filesystem. -/
def emptyFS : FS := ⟨[], []⟩

end Golf

namespace Golf

example : validate_par 6 = .error (.invalidPar 6) := by decide

example : validate_score 16 5 4 = .error (.invalidScore 16 5 4) := by decide

example : binsert 2 7 [(1, 4), (3, 5)] = [(1, 4), (2, 7), (3, 5)] := by decide

example : binsert 3 9 [(1, 4), (3, 5)] = [(1, 4), (3, 9)] := by decide

theorem validate_hole_number_ok (hole maxHoles : Nat)
    (h1 : hole ≠ 0) (h2 : hole ≤ maxHoles) :
    validate_hole_number hole maxHoles = .ok () := by
  unfold validate_hole_number
  have hc : (hole == 0 || decide (hole > maxHoles)) = false := by
    simp [h1]; omega
  rw [hc]
  rfl

theorem validate_hole_number_err (hole maxHoles : Nat)
    (h : hole = 0 ∨ hole > maxHoles) :
    validate_hole_number hole maxHoles = .error (.invalidHole hole maxHoles) := by
  unfold validate_hole_number
  have hc : (hole == 0 || decide (hole > maxHoles)) = true := by
    rcases h with h | h <;> simp [h]
  rw [hc]
  rfl

theorem validate_par_ok (par : Nat) (h : par = 3 ∨ par = 4 ∨ par = 5) :
    validate_par par = .ok () := by
  rcases h with h | h | h <;> subst h <;> decide

theorem validate_par_err (par : Nat) (h : ¬(par = 3 ∨ par = 4 ∨ par = 5)) :
    validate_par par = .error (.invalidPar par) := by
  unfold validate_par
  have hc : (par == 3 || par == 4 || par == 5) = false := by
    push_neg at h
    simp [h.1, h.2.1, h.2.2]
  rw [hc]
  rfl

theorem validate_score_ok (strokes hole par : Nat)
    (h1 : 1 ≤ strokes) (h2 : strokes ≤ 15) :
    validate_score strokes hole par = .ok () := by
  unfold validate_score
  have hc : (decide (1 ≤ strokes) && decide (strokes ≤ 15)) = true := by
    simp [h1, h2]
  rw [hc]
  rfl

theorem bget_binsert_self (k v : Nat) (m : BMap) :
    bget (binsert k v m) k = some v := by
  induction m with
  | nil => simp [binsert, bget, List.find?]
  | cons e rest ih =>
    obtain ⟨k₁, v₁⟩ := e
    by_cases h1 : k < k₁
    · simp [binsert, h1, bget, List.find?]
    · by_cases h2 : k = k₁
      · subst h2
        simp [binsert, h1, bget, List.find?]
      · have hb : (k₁ == k) = false := by simp [Ne.symm h2]
        simp [binsert, h1, h2, bget, List.find?, hb] at ih ⊢
        exact ih

theorem binsert_overwrite (k v w : Nat) (m : BMap) :
    binsert k v (binsert k w m) = binsert k v m := by
  induction m with
  | nil => simp [binsert]
  | cons e rest ih =>
    obtain ⟨k₁, v₁⟩ := e
    by_cases h1 : k < k₁
    · simp [binsert, h1, lt_irrefl]
    · by_cases h2 : k = k₁
      · subst h2
        simp [binsert, h1, lt_irrefl]
      · simp [binsert, h1, h2, ih]

/-- C10: `Scorecard::new` accepts `max_holes = 0` with an empty layout,
and the resulting card is immediately complete with
`total_strokes = Some(0)` and `score_relative_to_par = Some(0)`, though
no score was ever recorded. -/
theorem c10_zero_hole_card_complete :
    Scorecard.new 7 5 0 [] = .ok ⟨7, 5, 0, [], []⟩ ∧
    (Scorecard.mk 7 5 0 [] []).is_complete = true ∧
    (Scorecard.mk 7 5 0 [] []).total_strokes = some 0 ∧
    (Scorecard.mk 7 5 0 [] []).score_relative_to_par = some 0 := by
  decide

/-- C1 counterexample: `Scorecard.new 0 0 1 []` succeeds (the
constructor validates only entries present in the layout, not
coverage), and `record_score 1 4` on the resulting card — hole 1 is
within `1..max_holes` but has no par entry — panics
(`.expect("par must exist for each hole")`, the `none` outcome): the
program aborts instead of returning the claimed validation error. -/
theorem c1_counterexample_panic :
    Scorecard.new 0 0 1 [] = .ok c1Card ∧
    c1Card.record_score 1 4 = none ∧
    ∀ e : GolfError, c1Card.record_score 1 4 ≠ some (.error e) := by
  have h : c1Card.record_score 1 4 = none := by decide
  refine ⟨by decide, h, ?_⟩
  intro e hc
  rw [h] at hc
  exact Option.noConfusion hc

/-- C1 (amended): for every card and every hole within `1..max_holes`
that has no entry in the card's par map, `record_score` panics via
`.expect` (modelled as `none`) — an unrecoverable abort, not a returned
"unknown hole" validation error. -/
theorem c1_missing_par_panics (c : Scorecard) (hole strokes : Nat)
    (h1 : 1 ≤ hole) (h2 : hole ≤ c.max_holes)
    (h3 : bget c.pars hole = none) :
    c.record_score hole strokes = none := by
  unfold Scorecard.record_score
  rw [validate_hole_number_ok hole c.max_holes (by omega) h2, h3]

/-- Witness for the amended C1 at a concrete card. -/
theorem c1_missing_par_panics_witness :
    c1Card.record_score 1 4 = none :=
  c1_missing_par_panics c1Card 1 4 (by decide) (by decide) (by decide)

/-- C6: whenever `record_score` returns a validation error, the card
state after the call is identical to the state before it (the Rust
method returns before touching the score map). -/
theorem c6_validation_error_leaves_card_unchanged
    (c : Scorecard) (hole strokes : Nat) (e : GolfError)
    (h : c.record_score hole strokes = some (.error e)) :
    c.recordState hole strokes = some c := by
  unfold Scorecard.recordState
  rw [h]
  rfl

/-- Witness for C6: recording 16 strokes yields `InvalidScore` and the
card is unchanged. -/
theorem c6_witness :
    oneHoleCard.recordState 1 16 = some oneHoleCard :=
  c6_validation_error_leaves_card_unchanged oneHoleCard 1 16
    (.invalidScore 16 1 4) (by decide)

/-- C5: recording the same (hole, strokes) twice yields the same final
state as recording it once (through success, validation-error and
panic outcomes alike), and recording two different stroke values for
the same hole, the second one passing validation, leaves the second
value stored (last write wins). -/
theorem c5_record_score_idempotent_last_write_wins :
    (∀ (c : Scorecard) (hole s : Nat),
      (c.recordState hole s).bind (fun c₁ => c₁.recordState hole s) =
        c.recordState hole s) ∧
    (∀ (c : Scorecard) (hole s₁ s₂ : Nat),
      hole ≠ 0 → hole ≤ c.max_holes → (bget c.pars hole).isSome →
      1 ≤ s₂ → s₂ ≤ 15 →
      ∃ c₂,
        (c.recordState hole s₁).bind (fun c₁ => c₁.recordState hole s₂) = some c₂ ∧
        c₂.get_score hole = some s₂) := by
  constructor
  · intro c hole s
    cases hv : validate_hole_number hole c.max_holes with
    | error e => simp [Scorecard.recordState, Scorecard.record_score, hv]
    | ok u =>
      cases hp : bget c.pars hole with
      | none => simp [Scorecard.recordState, Scorecard.record_score, hv, hp]
      | some par =>
        cases hs : validate_score s hole par with
        | error e => simp [Scorecard.recordState, Scorecard.record_score, hv, hp, hs]
        | ok u₁ =>
          simp [Scorecard.recordState, Scorecard.record_score, hv, hp, hs,
            binsert_overwrite]
  · intro c hole s₁ s₂ h0 hle hp h1 h15
    obtain ⟨par, hpar⟩ := Option.isSome_iff_exists.mp hp
    have hv := validate_hole_number_ok hole c.max_holes h0 hle
    have hs₂ := validate_score_ok s₂ hole par h1 h15
    cases hs₁ : validate_score s₁ hole par with
    | error e =>
      refine ⟨{c with scores := binsert hole s₂ c.scores}, ?_, ?_⟩
      · simp [Scorecard.recordState, Scorecard.record_score, hv, hpar, hs₁, hs₂]
      · simp [Scorecard.get_score, bget_binsert_self]
    | ok u =>
      refine ⟨{c with scores := binsert hole s₂ (binsert hole s₁ c.scores)}, ?_, ?_⟩
      · simp [Scorecard.recordState, Scorecard.record_score, hv, hpar, hs₁, hs₂]
      · simp [Scorecard.get_score, bget_binsert_self]

/-- Witness for C5 at a concrete card: double-recording 4 is the same
as recording it once, and recording 3 then 5 stores 5. -/
theorem c5_witness :
    ((oneHoleCard.recordState 1 4).bind (fun c₁ => c₁.recordState 1 4) =
      oneHoleCard.recordState 1 4) ∧
    (∃ c₂,
      (oneHoleCard.recordState 1 3).bind (fun c₁ => c₁.recordState 1 5) = some c₂ ∧
      c₂.get_score 1 = some 5) :=
  ⟨c5_record_score_idempotent_last_write_wins.1 oneHoleCard 1 4,
   c5_record_score_idempotent_last_write_wins.2 oneHoleCard 1 3 5
     (by decide) (by decide) (by decide) (by decide) (by decide)⟩

theorem scores_length_le (c : Scorecard) (hwf : c.WF) :
    c.scores.length ≤ c.max_holes := by
  obtain ⟨hmax, hnodup, hmem⟩ := hwf
  have hcard : (c.scores.map Prod.fst).toFinset.card = c.scores.length := by
    rw [List.toFinset_card_of_nodup hnodup, List.length_map]
  have hsub : (c.scores.map Prod.fst).toFinset ⊆ Finset.Icc 1 c.max_holes := by
    intro k hk
    rw [List.mem_toFinset] at hk
    obtain ⟨e, he, hek⟩ := List.mem_map.mp hk
    have hb := hmem e he
    rw [Finset.mem_Icc]
    omega
  have hle := Finset.card_le_card hsub
  rw [hcard, Nat.card_Icc] at hle
  omega

/-- C4: for a card satisfying the data-model invariant, `is_complete`
is true iff the number of distinct scored holes equals `max_holes`, and
`total_strokes` / `score_relative_to_par` return a value exactly when
`is_complete` is true. -/
theorem c4_completeness_gates_totals (c : Scorecard) (hwf : c.WF) :
    (c.is_complete = true ↔
      (c.scores.map Prod.fst).toFinset.card = c.max_holes) ∧
    c.total_strokes.isSome = c.is_complete ∧
    c.score_relative_to_par.isSome = c.is_complete := by
  have hlen := scores_length_le c hwf
  obtain ⟨hmax, hnodup, hmem⟩ := hwf
  have hcard : (c.scores.map Prod.fst).toFinset.card = c.scores.length := by
    rw [List.toFinset_card_of_nodup hnodup, List.length_map]
  refine ⟨?_, ?_, ?_⟩
  · unfold Scorecard.is_complete
    rw [hcard, Nat.mod_eq_of_lt (by omega)]
    simp
  · cases h : c.is_complete <;> simp [Scorecard.total_strokes, h]
  · cases h : c.is_complete <;> simp [Scorecard.score_relative_to_par, h]

/-- Witness for C4 at a concrete complete well-formed card. -/
theorem c4_witness :
    (twoHoleCard.is_complete = true ↔
      (twoHoleCard.scores.map Prod.fst).toFinset.card = twoHoleCard.max_holes) ∧
    twoHoleCard.total_strokes.isSome = twoHoleCard.is_complete ∧
    twoHoleCard.score_relative_to_par.isSome = twoHoleCard.is_complete :=
  c4_completeness_gates_totals twoHoleCard (by decide)

theorem validateLayout_ok (maxHoles : Nat) (pars : BMap)
    (h : ∀ e ∈ pars, (1 ≤ e.1 ∧ e.1 ≤ maxHoles) ∧ (e.2 = 3 ∨ e.2 = 4 ∨ e.2 = 5)) :
    validateLayout maxHoles pars = .ok () := by
  induction pars with
  | nil => rfl
  | cons e rest ih =>
    obtain ⟨k, p⟩ := e
    obtain ⟨⟨hk1, hk2⟩, hp⟩ := h (k, p) (List.mem_cons_self _ _)
    unfold validateLayout
    rw [validate_hole_number_ok k maxHoles (by omega) hk2, validate_par_ok p hp]
    exact ih (fun e he => h e (List.mem_cons_of_mem _ he))

theorem validateLayout_err (maxHoles : Nat) (pars : BMap)
    (h : ∃ e ∈ pars, ¬((1 ≤ e.1 ∧ e.1 ≤ maxHoles) ∧ (e.2 = 3 ∨ e.2 = 4 ∨ e.2 = 5))) :
    ∃ hole par, (hole, par) ∈ pars ∧
      ((¬(1 ≤ hole ∧ hole ≤ maxHoles) ∧
        validateLayout maxHoles pars = .error (.invalidHole hole maxHoles)) ∨
       ((1 ≤ hole ∧ hole ≤ maxHoles) ∧ ¬(par = 3 ∨ par = 4 ∨ par = 5) ∧
        validateLayout maxHoles pars = .error (.invalidPar par))) := by
  induction pars with
  | nil =>
    obtain ⟨e, he, _⟩ := h
    cases he
  | cons e rest ih =>
    obtain ⟨k, p⟩ := e
    by_cases hk : 1 ≤ k ∧ k ≤ maxHoles
    · by_cases hp : p = 3 ∨ p = 4 ∨ p = 5
      · have hrest : ∃ e ∈ rest,
            ¬((1 ≤ e.1 ∧ e.1 ≤ maxHoles) ∧ (e.2 = 3 ∨ e.2 = 4 ∨ e.2 = 5)) := by
          obtain ⟨e₁, he₁, hviol⟩ := h
          rcases List.mem_cons.mp he₁ with rfl | hmem
          · exact absurd ⟨hk, hp⟩ hviol
          · exact ⟨e₁, hmem, hviol⟩
        obtain ⟨hole, par, hmem, hbr⟩ := ih hrest
        have hred : validateLayout maxHoles ((k, p) :: rest) =
            validateLayout maxHoles rest := by
          conv_lhs => rw [validateLayout]
          rw [validate_hole_number_ok k maxHoles (by omega) hk.2, validate_par_ok p hp]
        refine ⟨hole, par, List.mem_cons_of_mem _ hmem, ?_⟩
        rcases hbr with ⟨hnk, heq⟩ | ⟨hk₁, hnp, heq⟩
        · exact Or.inl ⟨hnk, by rw [hred, heq]⟩
        · exact Or.inr ⟨hk₁, hnp, by rw [hred, heq]⟩
      · refine ⟨k, p, List.mem_cons_self _ _, Or.inr ⟨hk, hp, ?_⟩⟩
        unfold validateLayout
        rw [validate_hole_number_ok k maxHoles (by omega) hk.2, validate_par_err p hp]
    · refine ⟨k, p, List.mem_cons_self _ _, Or.inl ⟨hk, ?_⟩⟩
      unfold validateLayout
      rw [validate_hole_number_err k maxHoles (by omega)]

/-- C7: `Scorecard::new` succeeds on a layout whose pairs are all in
range, producing a card with the given pars and no scores; a layout
with an out-of-range pair makes it fail with the specific matching
error — `InvalidHole` when the hole bound is violated (checked first),
`InvalidPar` when the hole is fine but the par is not 3, 4 or 5 — and
construct nothing. -/
theorem c7_new_validates_layout (roundId playerId maxHoles : Nat) (pars : BMap) :
    ((∀ e ∈ pars, (1 ≤ e.1 ∧ e.1 ≤ maxHoles) ∧ (e.2 = 3 ∨ e.2 = 4 ∨ e.2 = 5)) →
      Scorecard.new roundId playerId maxHoles pars =
        .ok ⟨roundId, playerId, maxHoles, [], pars⟩) ∧
    ((∃ e ∈ pars, ¬((1 ≤ e.1 ∧ e.1 ≤ maxHoles) ∧ (e.2 = 3 ∨ e.2 = 4 ∨ e.2 = 5))) →
      ∃ hole par, (hole, par) ∈ pars ∧
        ((¬(1 ≤ hole ∧ hole ≤ maxHoles) ∧
          Scorecard.new roundId playerId maxHoles pars =
            .error (.invalidHole hole maxHoles)) ∨
         ((1 ≤ hole ∧ hole ≤ maxHoles) ∧ ¬(par = 3 ∨ par = 4 ∨ par = 5) ∧
          Scorecard.new roundId playerId maxHoles pars =
            .error (.invalidPar par)))) := by
  constructor
  · intro h
    unfold Scorecard.new
    rw [validateLayout_ok maxHoles pars h]
  · intro h
    obtain ⟨hole, par, hmem, hbr⟩ := validateLayout_err maxHoles pars h
    refine ⟨hole, par, hmem, ?_⟩
    rcases hbr with ⟨hnk, heq⟩ | ⟨hk, hnp, heq⟩
    · exact Or.inl ⟨hnk, by unfold Scorecard.new; rw [heq]⟩
    · exact Or.inr ⟨hk, hnp, by unfold Scorecard.new; rw [heq]⟩

/-- Witness for C7: a fully in-range layout is accepted with the given
pars and an empty score map. -/
theorem c7_witness :
    Scorecard.new 1 2 2 [(1, 4), (2, 3)] = .ok ⟨1, 2, 2, [], [(1, 4), (2, 3)]⟩ :=
  (c7_new_validates_layout 1 2 2 [(1, 4), (2, 3)]).1 (by decide)

theorem countsSum_holeStep (card : Scorecard) (h : Nat) (acc : HoleCounts) :
    countsSum (holeStep card h acc) =
      countsSum acc +
        (if ((card.get_score h).isSome && (card.get_par h).isSome) = true
         then 1 else 0) := by
  obtain ⟨a, b, c, d, e⟩ := acc
  cases hs : card.get_score h with
  | none => simp [holeStep, hs]
  | some strokes =>
    cases hp : card.get_par h with
    | none => simp [holeStep, hs, hp]
    | some par =>
      simp only [holeStep, hs, hp, Option.isSome_some, Bool.and_self, if_true]
      split_ifs <;> simp [countsSum] <;> omega

theorem countsSum_foldl_holes (card : Scorecard) (holes : List Nat) (acc : HoleCounts) :
    countsSum (holes.foldl (fun a h => holeStep card h a) acc) =
      countsSum acc +
        holes.countP (fun h => (card.get_score h).isSome && (card.get_par h).isSome) := by
  induction holes generalizing acc with
  | nil => simp
  | cons h rest ih =>
    rw [List.foldl_cons, ih, countsSum_holeStep, List.countP_cons]
    by_cases hcond :
        ((card.get_score h).isSome && (card.get_par h).isSome) = true
    · simp only [hcond, if_true]
      omega
    · simp only [hcond, if_false]
      omega

theorem countsSum_foldl_cards (cards : List Scorecard) (acc : HoleCounts) :
    countsSum (cards.foldl
      (fun a card =>
        (List.range' 1 card.max_holes).foldl (fun a₁ h => holeStep card h a₁) a)
      acc) =
      countsSum acc + pairsWithScoreAndPar cards := by
  induction cards generalizing acc with
  | nil => simp [pairsWithScoreAndPar]
  | cons card rest ih =>
    rw [List.foldl_cons, ih, countsSum_foldl_holes]
    unfold pairsWithScoreAndPar scoredParPairs
    rw [List.map_cons, List.sum_cons, ← List.countP_eq_length_filter]
    omega

/-- C3 counterexample: on an input holding one incomplete card that has
both a score and a par on hole 1, the five classification counters sum
to 0 (only completed cards are analysed), not to the number of
(scorecard, hole) pairs carrying both a score and a par, which is 1. -/
theorem c3_counterexample_incomplete_card :
    ¬((from_scorecards [incompleteCard]).eagles +
        (from_scorecards [incompleteCard]).birdies +
        (from_scorecards [incompleteCard]).pars +
        (from_scorecards [incompleteCard]).bogeys +
        (from_scorecards [incompleteCard]).double_bogeys =
      pairsWithScoreAndPar [incompleteCard]) := by
  decide

/-- C3 (amended): the five classification counts of `from_scorecards`
sum to exactly the number of (scorecard, hole) pairs with both a score
and a par over the complete cards of the input (incomplete cards are
excluded from the per-hole analysis). -/
theorem c3_classification_counts_sum (cards : List Scorecard) :
    (from_scorecards cards).eagles + (from_scorecards cards).birdies +
      (from_scorecards cards).pars + (from_scorecards cards).bogeys +
      (from_scorecards cards).double_bogeys =
      pairsWithScoreAndPar (cards.filter (fun x => x.is_complete)) := by
  have h : countsSum (calculate_hole_statistics (cards.filter fun x => x.is_complete)) =
      pairsWithScoreAndPar (cards.filter fun x => x.is_complete) := by
    unfold calculate_hole_statistics
    rw [countsSum_foldl_cards]
    simp [countsSum]
  unfold from_scorecards
  rcases hcalc : calculate_hole_statistics (cards.filter fun x => x.is_complete)
    with ⟨a, b, c, d, e⟩
  rw [hcalc] at h
  simp only [countsSum] at h
  simp only [hcalc]
  simpa using h

theorem sumU16_foldl (l : List Nat) (a : Nat) (ha : a < 65536) :
    l.foldl (fun acc t => (acc + t) % 65536) a = (a + l.sum) % 65536 := by
  induction l generalizing a with
  | nil => simp [Nat.mod_eq_of_lt ha]
  | cons t rest ih =>
    rw [List.foldl_cons, ih ((a + t) % 65536) (Nat.mod_lt _ (by omega)),
      List.sum_cons, Nat.mod_add_mod, Nat.add_assoc]

theorem sumU16_eq_sum_mod (l : List Nat) : sumU16 l = l.sum % 65536 := by
  unfold sumU16
  rw [sumU16_foldl l 0 (by omega)]
  simp

theorem filter_replicate_of_pos {α : Type} (p : α → Bool) (a : α) (n : Nat)
    (h : p a = true) : (List.replicate n a).filter p = List.replicate n a := by
  induction n with
  | zero => rfl
  | succ n ih => simp [List.replicate_succ, List.filter_cons, h, ih]

theorem filterMap_replicate_some {α β : Type} (f : α → Option β) (a : α) (b : β)
    (n : Nat) (h : f a = some b) :
    (List.replicate n a).filterMap f = List.replicate n b := by
  induction n with
  | zero => rfl
  | succ n ih => simp [List.replicate_succ, List.filterMap_cons, h, ih]

theorem heavyCard_is_complete : heavyCard.is_complete = true := by decide

theorem heavyCard_total : heavyCard.total_strokes = some 225 := by decide

/-- C2 counterexample: on 292 copies of a complete 15-hole card of 225
strokes each (all entries within the validated ranges), the `u16`
accumulation of the totals wraps — 292 × 225 = 65700 ≡ 164 (mod 2^16) —
so `average_score` is 164/292 while the exact arithmetic mean of
`total_strokes` over the complete cards is 225. -/
theorem c2_counterexample_u16_overflow :
    (from_scorecards overflowInput).average_score ≠ meanTotalStrokes overflowInput := by
  have hfilter : overflowInput.filter (fun x => x.is_complete) = overflowInput := by
    unfold overflowInput
    exact filter_replicate_of_pos _ _ _ heavyCard_is_complete
  have htotals :
      (overflowInput.filter (fun x => x.is_complete)).filterMap Scorecard.total_strokes =
        List.replicate 292 225 := by
    rw [hfilter]
    unfold overflowInput
    exact filterMap_replicate_some _ _ _ _ heavyCard_total
  have havg : (from_scorecards overflowInput).average_score = some ((164 : ℚ) / 292) := by
    unfold from_scorecards
    rcases hcalc : calculate_hole_statistics (overflowInput.filter fun x => x.is_complete)
      with ⟨a, b, c, d, e⟩
    simp only [hcalc, htotals]
    rw [sumU16_eq_sum_mod, List.sum_const_nat]
    rw [hfilter]
    unfold overflowInput
    norm_num
  have hmean : meanTotalStrokes overflowInput = some 225 := by
    unfold meanTotalStrokes
    rw [htotals]
    norm_num
  rw [havg, hmean]
  intro hcontra
  rw [Option.some_inj] at hcontra
  norm_num at hcontra

theorem filterMap_total_strokes_complete (l : List Scorecard)
    (h : ∀ x ∈ l, x.is_complete = true) :
    l.filterMap Scorecard.total_strokes = l.map (fun c => bvaluesSum c.scores) := by
  induction l with
  | nil => rfl
  | cons c rest ih =>
    have hc : c.total_strokes = some (bvaluesSum c.scores) := by
      unfold Scorecard.total_strokes
      rw [h c (List.mem_cons_self _ _)]
      rfl
    simp [List.filterMap_cons, hc, ih (fun x hx => h x (List.mem_cons_of_mem _ hx))]

/-- C2 (amended): `average_score` equals the exact arithmetic mean of
`total_strokes()` over the complete cards whenever that sum of totals
fits the `u16` accumulator (sum < 2^16) and at least one card is
complete; the accumulator is `u16` — the same width as a single total —
so the unrestricted any-size claim fails (see the counterexample). -/
theorem c2_average_is_exact_mean_below_u16 (cards : List Scorecard)
    (hsum : ((cards.filter (fun x => x.is_complete)).filterMap
      Scorecard.total_strokes).sum < 65536)
    (hpos : 0 < (cards.filter (fun x => x.is_complete)).length) :
    (from_scorecards cards).average_score = meanTotalStrokes cards := by
  have hall : ∀ x ∈ cards.filter (fun x => x.is_complete), x.is_complete = true := by
    intro x hx
    exact (List.mem_filter.mp hx).2
  have hlen :
      ((cards.filter (fun x => x.is_complete)).filterMap
        Scorecard.total_strokes).length =
      (cards.filter (fun x => x.is_complete)).length := by
    rw [filterMap_total_strokes_complete _ hall, List.length_map]
  unfold from_scorecards meanTotalStrokes
  rcases hcalc : calculate_hole_statistics (cards.filter fun x => x.is_complete)
    with ⟨a, b, c, d, e⟩
  simp only [hcalc]
  rw [if_pos hpos, if_neg (by rw [hlen]; omega)]
  rw [sumU16_eq_sum_mod, Nat.mod_eq_of_lt hsum, hlen]

/-- Witness for the amended C2: one complete one-hole card, average
4/1 = 4 equals the exact mean. -/
theorem c2_witness :
    (from_scorecards [completeOneHole]).average_score =
      meanTotalStrokes [completeOneHole] :=
  c2_average_is_exact_mean_below_u16 [completeOneHole] (by decide) (by decide)

/-- C8: a get call for an id with nothing stored at its path returns
explicit absence (`Ok(None)`), not an error; a listing call over a
missing subdirectory returns the empty collection; and any error a get
call does produce is a serialization error (malformed data) or an
underlying I/O error. -/
theorem c8_absence_is_not_an_error (base : Path) (fs : FS) (id : Nat) :
    (fs.pathExists (player_path base id) = false →
      get_player base fs id = .ok none) ∧
    (fs.pathExists (scorecard_path base id) = false →
      get_scorecard base fs id = .ok none) ∧
    (fs.pathExists (playersDir base) = false → list_players base fs = .ok []) ∧
    (fs.pathExists (scorecardsDir base) = false → list_scorecards base fs = .ok []) ∧
    (∀ e, get_player base fs id = .error e →
      e = .serializationError ∨ e = .ioError) ∧
    (∀ e, get_scorecard base fs id = .error e →
      e = .serializationError ∨ e = .ioError) := by
  refine ⟨?_, ?_, ?_, ?_, ?_, ?_⟩
  · intro h
    simp [get_player, h]
  · intro h
    simp [get_scorecard, h]
  · intro h
    simp [list_players, h]
  · intro h
    simp [list_scorecards, h]
  · intro e he
    unfold get_player at he
    cases hp : fs.pathExists (player_path base id) with
    | false => simp [hp] at he
    | true =>
      simp only [hp, Bool.not_true, Bool.false_eq_true, if_false] at he
      cases hr : fs.read? (player_path base id) with
      | none =>
        rw [hr] at he
        simp only [Except.error.injEq] at he
        exact Or.inr he.symm
      | some d =>
        rw [hr] at he
        cases d with
        | playerDoc q => simp [decodePlayer] at he
        | scorecardDoc q =>
          simp only [decodePlayer, Except.error.injEq] at he
          exact Or.inl he.symm
        | malformed t =>
          simp only [decodePlayer, Except.error.injEq] at he
          exact Or.inl he.symm
  · intro e he
    unfold get_scorecard at he
    cases hp : fs.pathExists (scorecard_path base id) with
    | false => simp [hp] at he
    | true =>
      simp only [hp, Bool.not_true, Bool.false_eq_true, if_false] at he
      cases hr : fs.read? (scorecard_path base id) with
      | none =>
        rw [hr] at he
        simp only [Except.error.injEq] at he
        exact Or.inr he.symm
      | some d =>
        rw [hr] at he
        cases d with
        | scorecardDoc q => simp [decodeScorecard] at he
        | playerDoc q =>
          simp only [decodeScorecard, Except.error.injEq] at he
          exact Or.inl he.symm
        | malformed t =>
          simp only [decodeScorecard, Except.error.injEq] at he
          exact Or.inl he.symm

/-- Witness for C8: on the empty filesystem, gets return absence and
listings return empty collections. -/
theorem c8_witness :
    get_player ["data"] emptyFS 1 = .ok none ∧
    get_scorecard ["data"] emptyFS 1 = .ok none ∧
    list_players ["data"] emptyFS = .ok [] ∧
    list_scorecards ["data"] emptyFS = .ok [] :=
  ⟨(c8_absence_is_not_an_error ["data"] emptyFS 1).1 (by decide),
   (c8_absence_is_not_an_error ["data"] emptyFS 1).2.1 (by decide),
   (c8_absence_is_not_an_error ["data"] emptyFS 1).2.2.1 (by decide),
   (c8_absence_is_not_an_error ["data"] emptyFS 1).2.2.2.1 (by decide)⟩

/-- C9: a successful save followed by a get on the same id returns a
value equal to the original in every field, for players and for
scorecards. -/
theorem c9_save_get_round_trip (base : Path) (fs : FS) (p : Player) (s : Scorecard) :
    get_player base (save_player base fs p) p.id = .ok (some p) ∧
    get_scorecard base (save_scorecard base fs s) s.round_id = .ok (some s) := by
  constructor
  · have hfind : ((FS.createDirAll fs (playersDir base)).writeFile
        (player_path base p.id) (.playerDoc p)).files.find?
        (fun e => e.1 == player_path base p.id) =
        some (player_path base p.id, .playerDoc p) := by
      unfold FS.writeFile
      exact List.find?_cons_of_pos _ (by simp)
    simp [get_player, save_player, FS.pathExists, FS.read?, hfind, decodePlayer]
  · have hfind : ((FS.createDirAll fs (scorecardsDir base)).writeFile
        (scorecard_path base s.round_id) (.scorecardDoc s)).files.find?
        (fun e => e.1 == scorecard_path base s.round_id) =
        some (scorecard_path base s.round_id, .scorecardDoc s) := by
      unfold FS.writeFile
      exact List.find?_cons_of_pos _ (by simp)
    simp [get_scorecard, save_scorecard, FS.pathExists, FS.read?, hfind, decodeScorecard]

end Golf
